import Mathlib

/-!
Shallow embedding of the Medicaid fraud-signal detection engine
(`src/main.py` and `src/main_full.py`) and proofs about its behaviour.

Modelling conventions:
* dates (pandas Timestamps at month granularity) are embedded as `Option Int`
  (days; `none` models `NaT`, i.e. an unparseable/missing date);
* monetary amounts and ratios (floats in the source) are embedded as `ℚ`;
* claim and beneficiary counts are `Nat`;
* Python `dict`s (insertion-ordered) are embedded as insertion-ordered
  association lists `List (κ × β)`;
* `numpy.percentile` (default linear interpolation) is embedded exactly over `ℚ`.
-/

namespace Fraud

/-! ### Association-list primitives (Python `dict` semantics) -/

section AList

variable {κ : Type} [DecidableEq κ] {β : Type}

/-- First-match lookup, i.e. `d[k]` / `d.get(k)`. -/
def lookupA (k : κ) : List (κ × β) → Option β
  | [] => none
  | e :: m => if k = e.1 then some e.2 else lookupA k m

/-- The keys of the association list, in insertion order. -/
def keysA (m : List (κ × β)) : List κ := m.map (·.1)

/-- Replace the value stored at key `k` by `f` of it (`d[k] = f(d[k])`). -/
def updateA (k : κ) (f : β → β) : List (κ × β) → List (κ × β) :=
  List.map (fun e => if e.1 = k then (e.1, f e.2) else e)

/-- Insert `(k, v)` at the end when `k` is absent (`if k not in d: d[k] = v`).
Python dicts preserve insertion order, hence the append at the end. -/
def upsertA (k : κ) (v : β) (m : List (κ × β)) : List (κ × β) :=
  if (lookupA k m).isSome then m else m ++ [(k, v)]

@[simp] theorem lookupA_nil (k : κ) : lookupA k ([] : List (κ × β)) = none := rfl

@[simp] theorem lookupA_cons (k : κ) (e : κ × β) (m : List (κ × β)) :
    lookupA k (e :: m) = if k = e.1 then some e.2 else lookupA k m := rfl

@[simp] theorem updateA_nil (k : κ) (f : β → β) : updateA k f ([] : List (κ × β)) = [] := rfl

@[simp] theorem updateA_cons (k : κ) (f : β → β) (e : κ × β) (m : List (κ × β)) :
    updateA k f (e :: m) = (if e.1 = k then (e.1, f e.2) else e) :: updateA k f m := rfl

theorem lookupA_append (k : κ) (m m' : List (κ × β)) :
    lookupA k (m ++ m') =
      match lookupA k m with
      | some v => some v
      | none => lookupA k m' := by
  induction m with
  | nil => simp
  | cons e m ih =>
    by_cases h : k = e.1 <;> simp [h, ih]

theorem lookupA_updateA_self (k : κ) (f : β → β) (m : List (κ × β)) :
    lookupA k (updateA k f m) = (lookupA k m).map f := by
  induction m with
  | nil => simp
  | cons e m ih =>
    by_cases h : k = e.1
    · subst h; simp
    · have h2 : e.1 ≠ k := fun hh => h hh.symm
      simp [h, h2, ih]

theorem lookupA_updateA_ne {k k' : κ} (h : k ≠ k') (f : β → β) (m : List (κ × β)) :
    lookupA k (updateA k' f m) = lookupA k m := by
  induction m with
  | nil => simp
  | cons e m ih =>
    by_cases h2 : e.1 = k'
    · have hk : k ≠ e.1 := by rw [h2]; exact h
      simp [h2, hk, h, ih]
    · by_cases hk : k = e.1 <;> simp [h2, hk, ih]

theorem lookupA_upsertA_ne {k k' : κ} (h : k ≠ k') (v : β) (m : List (κ × β)) :
    lookupA k (upsertA k' v m) = lookupA k m := by
  unfold upsertA
  by_cases hs : (lookupA k' m).isSome
  · simp [hs]
  · simp [hs, lookupA_append]
    cases hm : lookupA k m <;> simp [h]

theorem lookupA_upsertA_self (k : κ) (v : β) (m : List (κ × β)) :
    lookupA k (upsertA k v m) = some ((lookupA k m).getD v) := by
  unfold upsertA
  cases hm : lookupA k m with
  | some w => simp [hm, Option.isSome]
  | none => simp [hm, Option.isSome, lookupA_append]

theorem keysA_updateA (k : κ) (f : β → β) (m : List (κ × β)) :
    keysA (updateA k f m) = keysA m := by
  induction m with
  | nil => rfl
  | cons e m ih =>
    by_cases h : e.1 = k <;> simp [updateA, keysA, h] at * <;> simpa [updateA, keysA, h]

theorem mem_keysA_iff_isSome (k : κ) (m : List (κ × β)) :
    k ∈ keysA m ↔ (lookupA k m).isSome := by
  induction m with
  | nil => simp [keysA]
  | cons e m ih =>
    by_cases h : k = e.1 <;> simp [keysA, h, ih] at * <;> simp [keysA, h, ih]

theorem keysA_upsertA (k : κ) (v : β) (m : List (κ × β)) :
    keysA (upsertA k v m) = if (lookupA k m).isSome then keysA m else keysA m ++ [k] := by
  unfold upsertA
  by_cases h : (lookupA k m).isSome <;> simp [h, keysA]

theorem nodup_keysA_upsertA (k : κ) (v : β) (m : List (κ × β))
    (h : (keysA m).Nodup) : (keysA (upsertA k v m)).Nodup := by
  rw [keysA_upsertA]
  by_cases hs : (lookupA k m).isSome
  · simpa [hs]
  · have hk : k ∉ keysA m := by
      rw [mem_keysA_iff_isSome]
      simp [hs]
    simp [hs, List.nodup_append, h, hk]

theorem forall_updateA {P : β → Prop} (k : κ) (f : β → β) (m : List (κ × β))
    (hm : ∀ e ∈ m, P e.2) (hf : ∀ b, P b → P (f b)) :
    ∀ e ∈ updateA k f m, P e.2 := by
  intro e he
  unfold updateA at he
  rcases List.mem_map.1 he with ⟨a, ha, hae⟩
  by_cases h : a.1 = k
  · simp [h] at hae
    rw [← hae]
    exact hf _ (hm a ha)
  · simp [h] at hae
    rw [← hae]
    exact hm a ha

theorem forall_upsertA {P : β → Prop} (k : κ) (v : β) (m : List (κ × β))
    (hm : ∀ e ∈ m, P e.2) (hv : P v) :
    ∀ e ∈ upsertA k v m, P e.2 := by
  intro e he
  unfold upsertA at he
  by_cases hs : (lookupA k m).isSome
  · simp [hs] at he
    exact hm e he
  · simp [hs] at he
    rcases he with he | he
    · exact hm e he
    · rw [he]
      exact hv

end AList

/-! ### Generic list helpers used by the embedding -/

/-- First-occurrence deduplication, i.e. `pandas.Series.unique` /
`dict.fromkeys` ordering. Structural recursion (accumulates seen keys) so that
it fully evaluates inside the kernel. -/
def firstDedupAux {α : Type} [DecidableEq α] : List α → List α → List α
  | [], _ => []
  | a :: l, seen => if a ∈ seen then firstDedupAux l seen else a :: firstDedupAux l (a :: seen)

def firstDedup {α : Type} [DecidableEq α] (l : List α) : List α := firstDedupAux l []

theorem mem_firstDedupAux {α : Type} [DecidableEq α] (x : α) :
    ∀ (l seen : List α), x ∈ firstDedupAux l seen ↔ x ∈ l ∧ x ∉ seen := by
  intro l
  induction l with
  | nil => intro seen; simp [firstDedupAux]
  | cons a l ih =>
    intro seen
    by_cases h : a ∈ seen
    · simp only [firstDedupAux, if_pos h, ih]
      constructor
      · rintro ⟨hx, hs⟩
        exact ⟨List.mem_cons_of_mem _ hx, hs⟩
      · rintro ⟨hx, hs⟩
        rcases List.mem_cons.1 hx with rfl | hx
        · exact absurd h hs
        · exact ⟨hx, hs⟩
    · simp only [firstDedupAux, if_neg h]
      constructor
      · intro hx
        rcases List.mem_cons.1 hx with rfl | hx
        · exact ⟨List.mem_cons_self _ _, h⟩
        · rcases (ih _).1 hx with ⟨h1, h2⟩
          refine ⟨List.mem_cons_of_mem _ h1, fun hs => h2 (List.mem_cons_of_mem _ hs)⟩
      · rintro ⟨hx, hs⟩
        rcases List.mem_cons.1 hx with rfl | hx
        · exact List.mem_cons_self _ _
        · by_cases hxa : x = a
          · subst hxa; exact List.mem_cons_self _ _
          · exact List.mem_cons_of_mem _ ((ih _).2 ⟨hx, by simp [hxa, hs]⟩)

theorem mem_firstDedup {α : Type} [DecidableEq α] (x : α) (l : List α) :
    x ∈ firstDedup l ↔ x ∈ l := by
  simp [firstDedup, mem_firstDedupAux]

theorem nodup_firstDedupAux {α : Type} [DecidableEq α] :
    ∀ (l seen : List α), (firstDedupAux l seen).Nodup := by
  intro l
  induction l with
  | nil => intro seen; simp [firstDedupAux]
  | cons a l ih =>
    intro seen
    by_cases h : a ∈ seen
    · simpa [firstDedupAux, h] using ih seen
    · simp only [firstDedupAux, if_neg h, List.nodup_cons]
      refine ⟨fun hmem => ?_, ih _⟩
      exact ((mem_firstDedupAux a l _).1 hmem).2 (List.mem_cons_self _ _)

theorem nodup_firstDedup {α : Type} [DecidableEq α] (l : List α) :
    (firstDedup l).Nodup := nodup_firstDedupAux l []

/-- Insertion into a list sorted by `le` (used to model sorted iteration order,
e.g. `pandas.groupby` which emits its group keys sorted). -/
def insertLe {α : Type} (le : α → α → Bool) (x : α) : List α → List α
  | [] => [x]
  | y :: ys => if le x y then x :: y :: ys else y :: insertLe le x ys

/-- Insertion sort by `le`. -/
def sortLe {α : Type} (le : α → α → Bool) (l : List α) : List α :=
  l.foldr (insertLe le) []

theorem mem_insertLe {α : Type} (le : α → α → Bool) (x y : α) :
    ∀ l : List α, y ∈ insertLe le x l ↔ y = x ∨ y ∈ l := by
  intro l
  induction l with
  | nil => simp [insertLe]
  | cons a l ih =>
    by_cases h : le x a <;> simp [insertLe, h, ih] <;> tauto

theorem mem_sortLe {α : Type} (le : α → α → Bool) (x : α) (l : List α) :
    x ∈ sortLe le l ↔ x ∈ l := by
  induction l with
  | nil => simp [sortLe]
  | cons a l ih =>
    have hs : sortLe le (a :: l) = insertLe le a (sortLe le l) := rfl
    rw [hs, mem_insertLe, ih]
    simp

theorem nodup_insertLe {α : Type} (le : α → α → Bool) (x : α) :
    ∀ l : List α, x ∉ l → l.Nodup → (insertLe le x l).Nodup := by
  intro l
  induction l with
  | nil => intro _ _; simp [insertLe]
  | cons a l ih =>
    intro hx hnd
    rcases List.nodup_cons.1 hnd with ⟨ha, hl⟩
    by_cases h : le x a
    · simp only [insertLe, if_pos h]
      exact List.nodup_cons.2 ⟨hx, hnd⟩
    · simp only [insertLe, if_neg h]
      refine List.nodup_cons.2 ⟨?_, ih (fun hm => hx (List.mem_cons_of_mem _ hm)) hl⟩
      rw [mem_insertLe]
      push_neg
      refine ⟨fun hax => hx ?_, ha⟩
      rw [← hax]; exact List.mem_cons_self _ _

theorem nodup_sortLe {α : Type} (le : α → α → Bool) (l : List α) (h : l.Nodup) :
    (sortLe le l).Nodup := by
  induction l with
  | nil => simp [sortLe]
  | cons a l ih =>
    rcases List.nodup_cons.1 h with ⟨ha, hl⟩
    have hs : sortLe le (a :: l) = insertLe le a (sortLe le l) := rfl
    rw [hs]
    refine nodup_insertLe le a _ ?_ (ih hl)
    rw [mem_sortLe]
    exact ha

/-- Sorted first-occurrence dedup of strings: models iterating over the keys of
a `pandas.groupby` result (sorted, each key once). -/
def sortedUnique (l : List String) : List String :=
  sortLe (fun a b => !decide (b < a)) (firstDedup l)

theorem mem_sortedUnique (x : String) (l : List String) :
    x ∈ sortedUnique l ↔ x ∈ l := by
  rw [sortedUnique, mem_sortLe, mem_firstDedup]

theorem nodup_sortedUnique (l : List String) : (sortedUnique l).Nodup :=
  nodup_sortLe _ _ (nodup_firstDedup l)

/-! ### Percentiles (`numpy.percentile`, linear interpolation) -/

/-- Ascending insertion sort over `ℚ` (the sort `numpy` applies before
interpolating). -/
def sortQ (l : List ℚ) : List ℚ := sortLe (fun a b => decide (a ≤ b)) l

/-- `numpy.percentile(xs, q)` at an integer percentile `q` (the engine only
uses `q = 99` and `q = 50`) with the default linear-interpolation method:
sort ascending, take the fractional rank `(n-1) * q/100`, and interpolate
between the two adjacent order statistics.  For integer `q` the rank's floor
is `(n-1)*q / 100` in natural division and its fractional part is
`((n-1)*q mod 100) / 100`, exactly.  Defined as `0` on the empty list (numpy
raises there; the pipeline never reaches that case). -/
def percentileQ (q : Nat) (xs : List ℚ) : ℚ :=
  let ys := sortQ xs
  let n := ys.length
  if n = 0 then 0
  else
    let pos := (n - 1) * q
    let i := pos / 100
    let frac : ℚ := ((pos % 100 : Nat) : ℚ) / 100
    let lo := ys.getD i 0
    let hi := ys.getD (i + 1) lo
    lo + frac * (hi - lo)

/-! ### Data model -/

/-- One claim-summary row of the spending dataset (the columns the engine
reads). `month` is the parsed `CLAIM_FROM_MONTH` (`none` = `NaT`), `servicing`
is the optional servicing-provider id, `hcpcs` the optional procedure code. -/
structure Row where
  billing : String
  servicing : Option String
  month : Option Int
  hcpcs : Option String
  paid : ℚ
  claims : Nat
  benes : Nat
  deriving DecidableEq

/-- One LEIE exclusion-list record (the columns the engine keeps). -/
structure ExclusionRecord where
  npi : String
  excltype : String
  excldate : Option Int
  reindate : Option Int
  lastname : String
  firstname : String
  deriving DecidableEq

/-- One NPPES identity-directory record (the fields the engine reads). -/
structure NppesInfo where
  entity_type : String
  name : String
  state : String
  enumeration_date : String
  taxonomy : String
  deriving DecidableEq

/-- The identity directory: entity id → identity record (`nppes.get(npi)`). -/
def Nppes : Type := String → Option NppesInfo

/-- Kind-specific structured evidence payload of a signal. -/
inductive Evidence where
  | exclusion (exclusion_date : Option Int) (exclusion_type : String)
      (total_paid_after_exclusion : ℚ) (claim_count : Nat)
  | outlier (peer_median : ℚ) (peer_99th_percentile : ℚ) (ratio_to_median : ℚ)
  | geo (hcpcs_codes : List String) (month : Option Int)
      (total_claims : Nat) (unique_beneficiaries : Nat) (beneficiary_ratio : ℚ)
  deriving DecidableEq

/-- One fraud signal entry. -/
structure Signal where
  signal_type : String
  severity : String
  evidence : Evidence
  deriving DecidableEq

/-- One flagged entity record of `main_full.run_all_signals` (`all_flagged[npi]`). -/
structure FlaggedEntity where
  npi : String
  provider_name : String
  entity_type : String
  taxonomy_code : String
  state : String
  enumeration_date : String
  total_paid_all_time : ℚ
  total_claims_all_time : Nat
  total_unique_beneficiaries_all_time : Nat
  signals : List Signal
  estimated_overpayment_usd : ℚ
  deriving DecidableEq

/-- `provider_totals[npi]` of `main_full.run_all_signals` signal 2. -/
structure PTot where
  paid : ℚ
  claims : Nat
  benes : Nat
  taxonomy : String
  state : String
  deriving DecidableEq

/-- `hh_monthly[(npi, month)]` of `main_full.run_all_signals` signal 6. -/
structure HHData where
  claims : Nat
  benes : Nat
  codes : List String
  deriving DecidableEq

/-- Mutable state threaded through `main_full.run_all_signals`: the merged
flagged-entity map plus the per-signal counters. -/
structure FullState where
  flagged : List (String × FlaggedEntity)
  count1 : Nat
  count2 : Nat
  count6 : Nat
  deriving DecidableEq

def emptyState : FullState := ⟨[], 0, 0, 0⟩

/-! ### Shared helpers of both scripts -/

/-- Exclusion-interval test: the violation mask
`(CLAIM_FROM_MONTH > EXCLDATE) & (REINDATE.isna() | (CLAIM_FROM_MONTH < REINDATE))`.
A `NaT` (`none`) claim date or exclusion date compares false in pandas, hence
never matches. -/
def violatesB (rec : ExclusionRecord) (d : Option Int) : Bool :=
  match d, rec.excldate with
  | some dd, some s =>
      decide (s < dd) &&
        (match rec.reindate with
         | none => true
         | some e => decide (dd < e))
  | _, _ => false

/-- Sum of `TOTAL_PAID` over a list of rows. -/
def sumPaid (rows : List Row) : ℚ := (rows.map (·.paid)).sum

/-- The set of excluded NPIs (`set(leie_df['NPI'].unique())`), as a membership
test. -/
def isExcluded (leie : List ExclusionRecord) (npi : String) : Bool :=
  decide (npi ∈ leie.map (·.npi))

/-! ### `main_full.run_all_signals` — Signal 1 (streaming exclusion detector) -/

/-- `nppes_info.get('name', default)` etc. -/
def nppesName (nppes : Nppes) (npi : String) (dflt : String) : String :=
  match nppes npi with
  | some i => i.name
  | none => dflt

def nppesField (nppes : Nppes) (npi : String) (f : NppesInfo → String) : String :=
  match nppes npi with
  | some i => f i
  | none => ""

def nppesEntityType (nppes : Nppes) (npi : String) : String :=
  match nppes npi with
  | some i => if i.entity_type = "2" then "organization" else "individual"
  | none => "individual"

/-- The fresh `all_flagged[npi]` record created by signal 1 on first flagging. -/
def initEnt1 (nppes : Nppes) (npi : String) (rec : ExclusionRecord) : FlaggedEntity :=
  { npi := npi
    provider_name := nppesName nppes npi (rec.firstname ++ " " ++ rec.lastname)
    entity_type := nppesEntityType nppes npi
    taxonomy_code := nppesField nppes npi (·.taxonomy)
    state := nppesField nppes npi (·.state)
    enumeration_date := nppesField nppes npi (·.enumeration_date)
    total_paid_all_time := 0
    total_claims_all_time := 0
    total_unique_beneficiaries_all_time := 0
    signals := []
    estimated_overpayment_usd := 0 }

/-- The signal entry built by signal 1 for one batch's violations. -/
def mkSig1 (rec : ExclusionRecord) (totalPaid : ℚ) (claimCount : Nat) : Signal :=
  { signal_type := "excluded_provider"
    severity := "critical"
    evidence := .exclusion rec.excldate rec.excltype totalPaid claimCount }

/-- Per-entity flagging step of signal 1 for one batch: create the record if
absent, add the batch's violating totals, then append the signal entry only if
an identical one is not already present (and only then add to the overpayment
and the signal counter). -/
def updFn1 (tp : ℚ) (n : Nat) (sig : Signal) (e : FlaggedEntity) : FlaggedEntity :=
  let e :=
    { e with
      total_paid_all_time := e.total_paid_all_time + tp
      total_claims_all_time := e.total_claims_all_time + n }
  if sig ∈ e.signals then e
  else
    { e with
      signals := e.signals ++ [sig]
      estimated_overpayment_usd := e.estimated_overpayment_usd + tp }

def flagStep1 (nppes : Nppes) (npi : String) (rec : ExclusionRecord)
    (violations : List Row) (st : FullState) : FullState :=
  let tp := sumPaid violations
  let sig := mkSig1 rec tp violations.length
  let fl := upsertA npi (initEnt1 nppes npi rec) st.flagged
  let isNew : Bool :=
    match lookupA npi fl with
    | some e => decide (sig ∉ e.signals)
    | none => true
  { st with
    flagged := updateA npi (updFn1 tp violations.length sig) fl
    count1 := if isNew then st.count1 + 1 else st.count1 }

/-- Signal 1, one batch: iterate over the batch's distinct billing NPIs
(first-occurrence order, `df[...].unique()`); for each excluded one take the
FIRST matching LEIE record (`leie_df[leie_df['NPI'] == npi].iloc[0]`), filter
that entity's violating rows and flag when any exist.  The servicing-provider
column is converted but never consulted by this variant. -/
def sig1Npi (leie : List ExclusionRecord) (nppes : Nppes) (b : List Row)
    (st : FullState) (npi : String) : FullState :=
  if isExcluded leie npi then
    match leie.find? (fun r => r.npi = npi) with
    | none => st
    | some rec =>
      let provider_claims := b.filter (fun r => r.billing = npi)
      let violations := provider_claims.filter (fun r => violatesB rec r.month)
      if violations.isEmpty then st else flagStep1 nppes npi rec violations st
  else st

def sig1Batch (leie : List ExclusionRecord) (nppes : Nppes) (st : FullState)
    (b : List Row) : FullState :=
  (firstDedup (b.map (·.billing))).foldl (sig1Npi leie nppes b) st

def sig1Stage (leie : List ExclusionRecord) (nppes : Nppes) (batches : List (List Row))
    (st : FullState) : FullState :=
  batches.foldl (sig1Batch leie nppes) st

/-! ### `main_full.run_all_signals` — Signal 2 aggregation and outlier pass -/

/-- One batch of the signal-2 aggregation: group the batch by billing NPI
(sorted keys, `groupby` default), add the batch sums into `provider_totals`
(a `defaultdict`, so the entry is created on first sight), then overwrite the
taxonomy/state fields from NPPES when the id is known. -/
def ptNpi (nppes : Nppes) (b : List Row) (pt : List (String × PTot)) (npi : String) :
    List (String × PTot) :=
  let rows := b.filter (fun r => r.billing = npi)
  let pt := upsertA npi ⟨0, 0, 0, "", ""⟩ pt
  updateA npi
    (fun d =>
      let d :=
        { d with
          paid := d.paid + sumPaid rows
          claims := d.claims + (rows.map (·.claims)).sum
          benes := d.benes + (rows.map (·.benes)).sum }
      match nppes npi with
      | some i => { d with taxonomy := i.taxonomy, state := i.state }
      | none => d)
    pt

def ptBatch (nppes : Nppes) (pt : List (String × PTot)) (b : List Row) :
    List (String × PTot) :=
  (sortedUnique (b.map (·.billing))).foldl (ptNpi nppes b) pt

def fullPT (nppes : Nppes) (batches : List (List Row)) : List (String × PTot) :=
  batches.foldl (ptBatch nppes) []

/-- Partition `provider_totals` into peer groups keyed by (taxonomy, state)
(`defaultdict(list)`, insertion order). -/
def peerGroups (pt : List (String × PTot)) :
    List ((String × String) × List (String × ℚ)) :=
  pt.foldl
    (fun acc e =>
      let key := (e.2.taxonomy, e.2.state)
      if (lookupA key acc).isSome then
        updateA key (fun l => l ++ [(e.1, e.2.paid)]) acc
      else acc ++ [(key, [(e.1, e.2.paid)])])
    []

/-- The outlier signal entry (severity from the ratio to the median). -/
def mkSig2 (med p99 ratio : ℚ) : Signal :=
  { signal_type := "billing_outlier"
    severity := if ratio > 5 then "high" else "medium"
    evidence := .outlier med p99 ratio }

/-- The fresh `all_flagged[npi]` record created by signal 2, filled from
`provider_totals` and the peer-group key. -/
def initEnt2 (nppes : Nppes) (pt : List (String × PTot)) (taxonomy state : String)
    (npi : String) (paid : ℚ) : FlaggedEntity :=
  { npi := npi
    provider_name := nppesName nppes npi "Unknown"
    entity_type := nppesEntityType nppes npi
    taxonomy_code := taxonomy
    state := state
    enumeration_date := nppesField nppes npi (·.enumeration_date)
    total_paid_all_time := paid
    total_claims_all_time := ((lookupA npi pt).map (·.claims)).getD 0
    total_unique_beneficiaries_all_time := ((lookupA npi pt).map (·.benes)).getD 0
    signals := []
    estimated_overpayment_usd := 0 }

/-- Flag one peer-group outlier: create the entity record if absent, append the
outlier signal, and add `max(0, paid - p99)` to its estimated overpayment. -/
def updFn2 (med p99 ratio paid : ℚ) (e : FlaggedEntity) : FlaggedEntity :=
  { e with
    signals := e.signals ++ [mkSig2 med p99 ratio]
    estimated_overpayment_usd := e.estimated_overpayment_usd + max 0 (paid - p99) }

def flagStep2 (nppes : Nppes) (pt : List (String × PTot)) (taxonomy state : String)
    (med p99 : ℚ) (npi : String) (paid : ℚ) (st : FullState) : FullState :=
  let ratio := if med > 0 then paid / med else 0
  let fl := upsertA npi (initEnt2 nppes pt taxonomy state npi paid) st.flagged
  { st with
    flagged := updateA npi (updFn2 med p99 ratio paid) fl
    count2 := st.count2 + 1 }

/-- Process one peer group: skip it entirely when it has fewer than 10 members;
otherwise compute the group's p99 and median and flag every member whose paid
amount strictly exceeds the p99. -/
def sig2Member (nppes : Nppes) (pt : List (String × PTot)) (taxonomy state : String)
    (med p99 : ℚ) (st : FullState) (m : String × ℚ) : FullState :=
  if m.2 > p99 then flagStep2 nppes pt taxonomy state med p99 m.1 m.2 st else st

def sig2Group (nppes : Nppes) (pt : List (String × PTot)) (st : FullState)
    (g : (String × String) × List (String × ℚ)) : FullState :=
  if g.2.length < 10 then st
  else
    let amounts := g.2.map (·.2)
    let p99 := percentileQ 99 amounts
    let med := percentileQ 50 amounts
    g.2.foldl (sig2Member nppes pt g.1.1 g.1.2 med p99) st

def sig2Stage (nppes : Nppes) (pt : List (String × PTot)) (st : FullState) : FullState :=
  (peerGroups pt).foldl (sig2Group nppes pt) st

/-! ### `main_full.run_all_signals` — Signal 6 (home-health ratio detector) -/

def homeHealthCodes : List String :=
  ["G0151", "G0152", "G0153", "G0154", "G0155", "G0156", "G0157", "G0158", "G0159",
   "G0160", "G0161", "G0162", "G0299", "G0300", "S9122", "S9123", "S9124",
   "T1019", "T1020", "T1021", "T1022"]

/-- Insert into the model of a Python `set` of codes (insertion-ordered,
duplicate-free). -/
def insertCode (c : String) (cs : List String) : List String :=
  if c ∈ cs then cs else cs ++ [c]

/-- One batch of the signal-6 aggregation: filter home-health rows and fold
each into `hh_monthly[(npi, month)]` (a `defaultdict`). -/
def hhBatch (hm : List ((String × Option Int) × HHData)) (b : List Row) :
    List ((String × Option Int) × HHData) :=
  (b.filter (fun r =>
      match r.hcpcs with
      | some c => decide (c ∈ homeHealthCodes)
      | none => false)).foldl
    (fun hm r =>
      match r.hcpcs with
      | some c =>
        let k := (r.billing, r.month)
        let hm := upsertA k ⟨0, 0, []⟩ hm
        updateA k
          (fun d =>
            { d with
              claims := d.claims + r.claims
              benes := d.benes + r.benes
              codes := insertCode c d.codes })
          hm
      | none => hm)
    hm

def fullHH (batches : List (List Row)) : List ((String × Option Int) × HHData) :=
  batches.foldl hhBatch []

/-- The beneficiary ratio of a monthly aggregate (1 when there are no claims,
avoiding the division by zero). -/
def hhRatio (d : HHData) : ℚ :=
  if d.claims > 0 then (d.benes : ℚ) / (d.claims : ℚ) else 1

/-- The signal-6 flag condition: more than 100 monthly claims AND beneficiary
ratio below 0.1. -/
def sig6Fires (d : HHData) : Bool :=
  decide (d.claims > 100) && decide (hhRatio d < 1 / 10)

def mkSig6 (d : HHData) (month : Option Int) : Signal :=
  { signal_type := "geographic_implausibility"
    severity := "medium"
    evidence := .geo d.codes month d.claims d.benes (hhRatio d) }

/-- The fresh `all_flagged[npi]` record created by signal 6. -/
def initEnt6 (nppes : Nppes) (npi : String) : FlaggedEntity :=
  { npi := npi
    provider_name := nppesName nppes npi "Unknown"
    entity_type := nppesEntityType nppes npi
    taxonomy_code := nppesField nppes npi (·.taxonomy)
    state := nppesField nppes npi (·.state)
    enumeration_date := nppesField nppes npi (·.enumeration_date)
    total_paid_all_time := 0
    total_claims_all_time := 0
    total_unique_beneficiaries_all_time := 0
    signals := []
    estimated_overpayment_usd := 0 }

/-- Flag one implausible (entity, month) aggregate: create the entity record if
absent and append the geographic-implausibility signal.  The estimated
overpayment is left unchanged (this detector contributes 0). -/
def updFn6 (d : HHData) (month : Option Int) (e : FlaggedEntity) : FlaggedEntity :=
  { e with signals := e.signals ++ [mkSig6 d month] }

def flagStep6 (nppes : Nppes) (npi : String) (month : Option Int) (d : HHData)
    (st : FullState) : FullState :=
  let fl := upsertA npi (initEnt6 nppes npi) st.flagged
  { st with
    flagged := updateA npi (updFn6 d month) fl
    count6 := st.count6 + 1 }

def sig6Step (nppes : Nppes) (st : FullState) (e : (String × Option Int) × HHData) :
    FullState :=
  if sig6Fires e.2 then flagStep6 nppes e.1.1 e.1.2 e.2 st else st

def sig6Stage (nppes : Nppes) (hm : List ((String × Option Int) × HHData))
    (st : FullState) : FullState :=
  hm.foldl (sig6Step nppes) st

/-! ### `main_full.run_all_signals` — composition and report -/

/-- The whole `run_all_signals` pipeline over a list of batches (row groups):
signal 1 streaming pass, signal 2 aggregation pass plus peer-group outlier
pass, signal 6 aggregation pass plus flag pass, all feeding one shared
`all_flagged` map.  (The FCA-relevance annotation appended at the end is a
static per-entity lookup that touches no field reasoned about here and is
omitted.) -/
def runFull (leie : List ExclusionRecord) (nppes : Nppes) (batches : List (List Row)) :
    FullState :=
  let st1 := sig1Stage leie nppes batches emptyState
  let pt := fullPT nppes batches
  let st2 := sig2Stage nppes pt st1
  let hm := fullHH batches
  sig6Stage nppes hm st2

/-- `total_providers_scanned` of the full pipeline's report:
`len(provider_totals)`. -/
def fullScanned (nppes : Nppes) (batches : List (List Row)) : Nat :=
  (fullPT nppes batches).length

/-- `total_providers_flagged` of the final report:
`len(results['flagged_providers'])`, the length of the values list of the
merged flagged map. -/
def fullFlaggedCount (leie : List ExclusionRecord) (nppes : Nppes)
    (batches : List (List Row)) : Nat :=
  (runFull leie nppes batches).flagged.length

/-! ### `main.py` — the signal functions and the merge

`main.py` runs three standalone signal functions, each returning a list of
provider dicts, then merges them into `all_providers` keyed by npi.  Only the
fields the merge and the report read are carried here (the per-detector
descriptive extras — FCA annotation, state, beneficiary totals — are constant
strings/ints that no merging or counting logic consults). -/

/-- One provider dict produced by a `main.py` signal function. -/
structure MainResult where
  npi : String
  provider_name : String
  total_paid_all_time : ℚ
  signals : List Signal
  estimated_overpayment_usd : ℚ
  deriving DecidableEq

/-- One (claim row, LEIE record) match produced by
`df_ex.merge(leie_df, left_on=..., right_on='NPI')`. -/
structure Pair where
  row : Row
  exrec : ExclusionRecord
  deriving DecidableEq

/-- Billing-side violating pairs of one batch: filter rows whose billing NPI is
excluded, inner-join with the LEIE table on that NPI, keep rows passing the
violation mask. -/
def billViol (leie : List ExclusionRecord) (b : List Row) : List Pair :=
  (((b.filter (fun r => isExcluded leie r.billing)).bind
      (fun r => (leie.filter (fun rec => rec.npi = r.billing)).map (Pair.mk r))).filter
    (fun p => violatesB p.exrec p.row.month))

/-- Servicing-side violating pairs of one batch (same join keyed on the
servicing NPI; rows with no servicing id cannot match). -/
def servViol (leie : List ExclusionRecord) (b : List Row) : List Pair :=
  (((b.filter (fun r =>
        match r.servicing with
        | some s => isExcluded leie s
        | none => false)).bind
      (fun r => (leie.filter (fun rec => some rec.npi = r.servicing)).map (Pair.mk r))).filter
    (fun p => violatesB p.exrec p.row.month))

/-- All violating pairs accumulated by `signal1_excluded_provider`: per batch,
first the billing-side matches, then the servicing-side matches. -/
def mainAllPairs (leie : List ExclusionRecord) (batches : List (List Row)) : List Pair :=
  (batches.map (fun b => billViol leie b ++ servViol leie b)).join

/-- Sum of `TOTAL_PAID` over a list of pairs (each pair contributes its row's
paid amount once, so a row matched by several LEIE records — or by both the
billing and the servicing join — is counted once per match). -/
def sumPairPaid (ps : List Pair) : ℚ := (ps.map (·.row.paid)).sum

/-- The provider name `f"{FIRSTNAME} {LASTNAME}".strip() or 'Unknown'`. -/
def leieName (rec : ExclusionRecord) : String :=
  let nm := (rec.firstname ++ " " ++ rec.lastname).trim
  if nm = "" then "Unknown" else nm

/-- The aggregated result record for one NPI group of
`all_violations.groupby('NPI')`: total paid and claim count over the group's
pairs, one critical `excluded_provider` signal whose evidence carries the
FIRST pair's exclusion date and type (`iloc[0]`), and the full post-exclusion
paid amount as the estimated overpayment. -/
def mkMainRes1 (npi : String) (group : List Pair) : MainResult :=
  let tp := sumPairPaid group
  let rec0 : ExclusionRecord := ((group.head?).map (·.exrec)).getD ⟨"", "", none, none, "", ""⟩
  { npi := npi
    provider_name := leieName rec0
    total_paid_all_time := tp
    signals := [{ signal_type := "excluded_provider"
                  severity := "critical"
                  evidence := .exclusion rec0.excldate rec0.excltype tp group.length }]
    estimated_overpayment_usd := tp }

/-- `signal1_excluded_provider`: collect all violating pairs, group them by the
LEIE record's NPI (`groupby` emits keys sorted, one group per key), aggregate
each group. -/
def mainSignal1 (leie : List ExclusionRecord) (batches : List (List Row)) : List MainResult :=
  let ps := mainAllPairs leie batches
  (sortedUnique (ps.map (·.exrec.npi))).map
    (fun npi => mkMainRes1 npi (ps.filter (fun p => p.exrec.npi = npi)))

/-- `provider_totals[npi]` of `main.py` signal 2 (no NPPES enrichment). -/
structure MainTot where
  paid : ℚ
  claims : Nat
  benes : Nat
  deriving DecidableEq

/-- The `main.py` signal-2 aggregation over all batches: per batch, group by
billing NPI (sorted keys) and fold the batch sums into `provider_totals`,
creating the zero entry on first sight. -/
def mainPT (batches : List (List Row)) : List (String × MainTot) :=
  batches.foldl
    (fun pt b =>
      (sortedUnique (b.map (·.billing))).foldl
        (fun pt npi =>
          let rows := b.filter (fun r => r.billing = npi)
          let pt := upsertA npi (⟨0, 0, 0⟩ : MainTot) pt
          updateA npi
            (fun d =>
              { d with
                paid := d.paid + sumPaid rows
                claims := d.claims + (rows.map (·.claims)).sum
                benes := d.benes + (rows.map (·.benes)).sum })
            pt)
        pt)
    []

/-- The single global 99th percentile of `main.py` signal 2 (no peer grouping,
no minimum group size). -/
def mainP99 (batches : List (List Row)) : ℚ :=
  percentileQ 99 ((mainPT batches).map (·.2.paid))

def mainMedian (batches : List (List Row)) : ℚ :=
  percentileQ 50 ((mainPT batches).map (·.2.paid))

/-- `signal2_billing_outlier`: flag every provider whose lifetime paid amount
strictly exceeds the global 99th percentile; overpayment is
`max(0, paid - p99)`. -/
def mainSignal2 (batches : List (List Row)) : List MainResult :=
  let pt := mainPT batches
  let p99 := mainP99 batches
  let med := mainMedian batches
  (pt.filter (fun e => e.2.paid > p99)).map
    (fun e =>
      let ratio := if med > 0 then e.2.paid / med else 0
      { npi := e.1
        provider_name := "Unknown"
        total_paid_all_time := e.2.paid
        signals := [mkSig2 med p99 ratio]
        estimated_overpayment_usd := max 0 (e.2.paid - p99) })

/-- The `main.py` signal-6 monthly aggregation (concat of the home-health rows
of all batches, grouped by (billing NPI, parsed month)); the resulting
aggregates coincide with the incremental `hh_monthly` map. -/
def mainHH (batches : List (List Row)) : List ((String × Option Int) × HHData) :=
  fullHH batches

/-- `signal6_geographic_implausibility`: keep the monthly aggregates with more
than 100 claims and beneficiary ratio below 0.1; estimated overpayment is 0. -/
def mainSignal6 (batches : List (List Row)) : List MainResult :=
  ((mainHH batches).filter (fun e => sig6Fires e.2)).map
    (fun e =>
      { npi := e.1.1
        provider_name := "Unknown"
        total_paid_all_time := 0
        signals := [mkSig6 e.2 e.1.2]
        estimated_overpayment_usd := 0 })

/-- The merge loop of `main.main`: first record of an npi is inserted whole, a
later record for the same npi extends the signals list and adds its estimated
overpayment. -/
def mainCombineStep (st : List (String × MainResult)) (p : MainResult) :
    List (String × MainResult) :=
  if (lookupA p.npi st).isSome then
    updateA p.npi
      (fun q =>
        { q with
          signals := q.signals ++ p.signals
          estimated_overpayment_usd :=
            q.estimated_overpayment_usd + p.estimated_overpayment_usd })
      st
  else st ++ [(p.npi, p)]

def mainCombineFrom (st : List (String × MainResult)) (l : List MainResult) :
    List (String × MainResult) :=
  l.foldl mainCombineStep st

/-- `all_providers` after merging the three signal-result lists in order. -/
def mainRun (leie : List ExclusionRecord) (batches : List (List Row)) :
    List (String × MainResult) :=
  mainCombineFrom []
    (mainSignal1 leie batches ++ mainSignal2 batches ++ mainSignal6 batches)

/-- `total_providers_scanned` of the `main.py` report:
`len(signal2_results) * 100  # Approximate`. -/
def mainScanned (batches : List (List Row)) : Nat :=
  (mainSignal2 batches).length * 100

/-- `total_providers_flagged` of the `main.py` report: `len(all_providers)`. -/
def mainFlaggedCount (leie : List ExclusionRecord) (batches : List (List Row)) : Nat :=
  (mainRun leie batches).length

/-! ## Lemma kit: how the flag steps touch the flagged map -/

theorem flagStep1_flagged (nppes : Nppes) (npi : String) (rec : ExclusionRecord)
    (viol : List Row) (st : FullState) :
    (flagStep1 nppes npi rec viol st).flagged =
      updateA npi (updFn1 (sumPaid viol) viol.length (mkSig1 rec (sumPaid viol) viol.length))
        (upsertA npi (initEnt1 nppes npi rec) st.flagged) := rfl

theorem flagStep2_flagged (nppes : Nppes) (pt : List (String × PTot))
    (taxonomy state : String) (med p99 : ℚ) (npi : String) (paid : ℚ) (st : FullState) :
    (flagStep2 nppes pt taxonomy state med p99 npi paid st).flagged =
      updateA npi (updFn2 med p99 (if med > 0 then paid / med else 0) paid)
        (upsertA npi (initEnt2 nppes pt taxonomy state npi paid) st.flagged) := rfl

theorem flagStep6_flagged (nppes : Nppes) (npi : String) (month : Option Int)
    (d : HHData) (st : FullState) :
    (flagStep6 nppes npi month d st).flagged =
      updateA npi (updFn6 d month) (upsertA npi (initEnt6 nppes npi) st.flagged) := rfl

theorem flagged_flagStep1_ne {k npi : String} (h : k ≠ npi) (nppes : Nppes)
    (rec : ExclusionRecord) (viol : List Row) (st : FullState) :
    lookupA k (flagStep1 nppes npi rec viol st).flagged = lookupA k st.flagged := by
  rw [flagStep1_flagged, lookupA_updateA_ne h, lookupA_upsertA_ne h]

theorem flagged_flagStep2_ne {k npi : String} (h : k ≠ npi) (nppes : Nppes)
    (pt : List (String × PTot)) (taxonomy state : String) (med p99 paid : ℚ)
    (st : FullState) :
    lookupA k (flagStep2 nppes pt taxonomy state med p99 npi paid st).flagged =
      lookupA k st.flagged := by
  rw [flagStep2_flagged, lookupA_updateA_ne h, lookupA_upsertA_ne h]

theorem flagged_flagStep6_ne {k npi : String} (h : k ≠ npi) (nppes : Nppes)
    (month : Option Int) (d : HHData) (st : FullState) :
    lookupA k (flagStep6 nppes npi month d st).flagged = lookupA k st.flagged := by
  rw [flagStep6_flagged, lookupA_updateA_ne h, lookupA_upsertA_ne h]

theorem flagged_sig2Member_ne {k : String} (nppes : Nppes) (pt : List (String × PTot))
    (taxonomy state : String) (med p99 : ℚ) (st : FullState) (m : String × ℚ)
    (h : k ≠ m.1) :
    lookupA k (sig2Member nppes pt taxonomy state med p99 st m).flagged =
      lookupA k st.flagged := by
  unfold sig2Member
  by_cases hp : m.2 > p99
  · rw [if_pos hp, flagged_flagStep2_ne h]
  · rw [if_neg hp]

theorem flagged_foldl_sig2Member_ne {k : String} (nppes : Nppes)
    (pt : List (String × PTot)) (taxonomy state : String) (med p99 : ℚ) :
    ∀ (members : List (String × ℚ)) (st : FullState),
      (∀ m ∈ members, m.1 ≠ k) →
      lookupA k ((members.foldl (sig2Member nppes pt taxonomy state med p99) st)).flagged =
        lookupA k st.flagged := by
  intro members
  induction members with
  | nil => intro st _; rfl
  | cons m members ih =>
    intro st h
    rw [List.foldl_cons, ih _ (fun x hx => h x (List.mem_cons_of_mem _ hx)),
      flagged_sig2Member_ne _ _ _ _ _ _ _ _ (fun hk => (h m (List.mem_cons_self _ _)) hk.symm)]

/-- When the entity is absent from the flagged map, `flagStep2` installs
exactly the outlier record: one signal, overpayment `max 0 (paid - p99)`. -/
theorem flagged_flagStep2_self_fresh (nppes : Nppes) (pt : List (String × PTot))
    (taxonomy state : String) (med p99 paid : ℚ) (npi : String) (st : FullState)
    (h : lookupA npi st.flagged = none) :
    lookupA npi (flagStep2 nppes pt taxonomy state med p99 npi paid st).flagged =
      some { initEnt2 nppes pt taxonomy state npi paid with
              signals := [mkSig2 med p99 (if med > 0 then paid / med else 0)]
              estimated_overpayment_usd := max 0 (paid - p99) } := by
  rw [flagStep2_flagged, lookupA_updateA_self, lookupA_upsertA_self, h]
  simp [updFn2, initEnt2]


/-! ## Concrete fixtures used by witnesses and counterexamples -/

/-- A ten-member peer group sharing the empty (taxonomy, state) key, with one
extreme member.  p99 of the paid amounts is 9 + 0.91 * (1001 - 9) = 911.72. -/
def ptTen : List (String × PTot) :=
  [("P1", ⟨1, 0, 0, "", ""⟩), ("P2", ⟨2, 0, 0, "", ""⟩), ("P3", ⟨3, 0, 0, "", ""⟩),
   ("P4", ⟨4, 0, 0, "", ""⟩), ("P5", ⟨5, 0, 0, "", ""⟩), ("P6", ⟨6, 0, 0, "", ""⟩),
   ("P7", ⟨7, 0, 0, "", ""⟩), ("P8", ⟨8, 0, 0, "", ""⟩), ("P9", ⟨9, 0, 0, "", ""⟩),
   ("BIG", ⟨1001, 0, 0, "", ""⟩)]

/-- The same scenario with only the nine small members. -/
def ptNine : List (String × PTot) :=
  [("P1", ⟨1, 0, 0, "", ""⟩), ("P2", ⟨2, 0, 0, "", ""⟩), ("P3", ⟨3, 0, 0, "", ""⟩),
   ("P4", ⟨4, 0, 0, "", ""⟩), ("P5", ⟨5, 0, 0, "", ""⟩), ("P6", ⟨6, 0, 0, "", ""⟩),
   ("P7", ⟨7, 0, 0, "", ""⟩), ("P8", ⟨8, 0, 0, "", ""⟩),
   ("BIG", ⟨1000000, 0, 0, "", ""⟩)]

/-! ## C3 — exclusion-interval boundary semantics -/

/-- C3: the exclusion detector's violation test fires iff `start < d` and
(`end` is null or `d < end`); in particular a claim dated exactly on the
exclusion start date is not flagged, a claim dated exactly on the
reinstatement date is not flagged, a claim strictly inside the interval is
flagged, and an open-ended interval matches every date after its start. -/
theorem C3_exclusion_interval_boundaries :
    (∀ (rec : ExclusionRecord) (s d : Int), rec.excldate = some s →
        (violatesB rec (some d) = true ↔
          s < d ∧ (rec.reindate = none ∨ ∃ en, rec.reindate = some en ∧ d < en)))
    ∧ (∀ (rec : ExclusionRecord) (s : Int), rec.excldate = some s →
        violatesB rec (some s) = false)
    ∧ (∀ (rec : ExclusionRecord) (en : Int), rec.reindate = some en →
        violatesB rec (some en) = false)
    ∧ (∀ (rec : ExclusionRecord) (s d en : Int), rec.excldate = some s →
        rec.reindate = some en → s < d → d < en → violatesB rec (some d) = true)
    ∧ (∀ (rec : ExclusionRecord) (s d : Int), rec.excldate = some s →
        rec.reindate = none → s < d → violatesB rec (some d) = true) := by
  refine ⟨?_, ?_, ?_, ?_, ?_⟩
  · rintro ⟨npi, ty, ed, rd, ln, fn⟩ s d h
    simp only at h
    subst h
    cases rd <;> simp [violatesB]
  · rintro ⟨npi, ty, ed, rd, ln, fn⟩ s h
    simp only at h
    subst h
    cases rd <;> simp [violatesB]
  · rintro ⟨npi, ty, ed, rd, ln, fn⟩ en h
    simp only at h
    subst h
    cases ed <;> simp [violatesB]
  · rintro ⟨npi, ty, ed, rd, ln, fn⟩ s d en h1 h2 h3 h4
    simp only at h1 h2
    subst h1; subst h2
    simp [violatesB, h3, h4]
  · rintro ⟨npi, ty, ed, rd, ln, fn⟩ s d h1 h2 h3
    simp only at h1 h2
    subst h1; subst h2
    simp [violatesB, h3]

/-- Witness for C3 at concrete dates: interval [0, 5), claims at 0 (start, not
flagged), 5 (reinstatement, not flagged), 3 (inside, flagged), and an
open-ended exclusion matched at 3. -/
theorem C3_witness :
    violatesB ⟨"A", "t", some 0, some 5, "L", "F"⟩ (some 0) = false
    ∧ violatesB ⟨"A", "t", some 0, some 5, "L", "F"⟩ (some 5) = false
    ∧ violatesB ⟨"A", "t", some 0, some 5, "L", "F"⟩ (some 3) = true
    ∧ violatesB ⟨"A", "t", some 0, none, "L", "F"⟩ (some 3) = true :=
  ⟨C3_exclusion_interval_boundaries.2.1 _ 0 rfl,
   C3_exclusion_interval_boundaries.2.2.1 _ 5 rfl,
   C3_exclusion_interval_boundaries.2.2.2.1 _ 0 3 5 rfl rfl (by norm_num) (by norm_num),
   C3_exclusion_interval_boundaries.2.2.2.2 _ 0 3 rfl rfl (by norm_num)⟩

/-! ## C6 — minimum peer-group size -/

/-- C6: a peer group with fewer than 10 members emits no outlier flags at all
(the whole outlier pass is the identity when every group is small), and a
group of exactly 10 members is eligible: in a concrete 10-member group the
extreme member receives a billing_outlier signal. -/
theorem C6_peer_group_minimum_size :
    (∀ (nppes : Nppes) (pt : List (String × PTot)) (st : FullState),
        (∀ g ∈ peerGroups pt, g.2.length < 10) → sig2Stage nppes pt st = st)
    ∧ (lookupA "BIG" (sig2Stage (fun _ => none) ptTen emptyState).flagged).map
        (fun e => e.signals.map (·.signal_type)) = some ["billing_outlier"] := by
  constructor
  · intro nppes pt st h
    unfold sig2Stage
    revert h
    generalize peerGroups pt = gs
    intro h
    induction gs generalizing st with
    | nil => rfl
    | cons g gs ih =>
      rw [List.foldl_cons]
      have hg : sig2Group nppes pt st g = st := by
        unfold sig2Group
        rw [if_pos (h g (List.mem_cons_self _ _))]
      rw [hg]
      exact ih _ (fun g' hg' => h g' (List.mem_cons_of_mem _ hg'))
  · norm_num [sig2Stage, sig2Group, sig2Member, flagStep2, updFn2, initEnt2, mkSig2,
      peerGroups, percentileQ, sortQ, sortLe, insertLe, List.getD, lookupA, updateA,
      upsertA, emptyState, ptTen, nppesName, nppesField, nppesEntityType]

/-- Witness for C6: the nine-member group with an extreme value produces no
flags at all — the outlier pass leaves the state untouched. -/
theorem C6_witness :
    sig2Stage (fun _ => none) ptNine emptyState = emptyState :=
  C6_peer_group_minimum_size.1 (fun _ => none) ptNine emptyState (by decide)

/-! ## C7 — strict p99 threshold and single outlier contribution -/

/-- C7: within an eligible peer group, a member entity (not flagged before this
pass) is flagged iff its paid amount strictly exceeds the group's 99th
percentile — a member with paid equal to p99 stays unflagged — and when
flagged, its record carries exactly the one outlier signal and overpayment
`max 0 (paid - p99)`, computed once. -/
theorem C7_outlier_strict_threshold (nppes : Nppes) (pt : List (String × PTot))
    (g : (String × String) × List (String × ℚ)) (st : FullState)
    (npi : String) (paid : ℚ)
    (hmem : (npi, paid) ∈ g.2) (hlen : 10 ≤ g.2.length)
    (hnd : (g.2.map Prod.fst).Nodup)
    (hst : lookupA npi st.flagged = none) :
    (paid ≤ percentileQ 99 (g.2.map (·.2)) →
      lookupA npi (sig2Group nppes pt st g).flagged = none)
    ∧ (percentileQ 99 (g.2.map (·.2)) < paid →
      ∃ e, lookupA npi (sig2Group nppes pt st g).flagged = some e ∧
        e.estimated_overpayment_usd = max 0 (paid - percentileQ 99 (g.2.map (·.2))) ∧
        e.signals = [mkSig2 (percentileQ 50 (g.2.map (·.2)))
          (percentileQ 99 (g.2.map (·.2)))
          (if percentileQ 50 (g.2.map (·.2)) > 0
           then paid / percentileQ 50 (g.2.map (·.2)) else 0)]) := by
  have hnotlt : ¬ g.2.length < 10 := by omega
  obtain ⟨l1, l2, hsplit⟩ := List.append_of_mem hmem
  have hnd' := hnd
  rw [hsplit, List.map_append, List.map_cons] at hnd'
  have h1 : ∀ m ∈ l1, m.1 ≠ npi := by
    intro m hm heq
    have hm1 : npi ∈ l1.map Prod.fst := List.mem_map.2 ⟨m, hm, heq⟩
    rcases List.nodup_append.1 hnd' with ⟨_, _, hdisj⟩
    exact hdisj hm1 (List.mem_cons_self _ _)
  have h2 : ∀ m ∈ l2, m.1 ≠ npi := by
    intro m hm heq
    have hmem2 : npi ∈ l2.map Prod.fst := List.mem_map.2 ⟨m, hm, heq⟩
    rcases List.nodup_append.1 hnd' with ⟨_, hcons, _⟩
    exact (List.nodup_cons.1 hcons).1 hmem2
  unfold sig2Group
  rw [if_neg hnotlt]
  simp only
  set med := percentileQ 50 (g.2.map (·.2)) with hmed
  set p99 := percentileQ 99 (g.2.map (·.2)) with hp99
  rw [show g.2 = l1 ++ (npi, paid) :: l2 from hsplit, List.foldl_append, List.foldl_cons]
  have hpre : lookupA npi ((l1.foldl (sig2Member nppes pt g.1.1 g.1.2 med p99) st)).flagged
      = none := by
    rw [flagged_foldl_sig2Member_ne nppes pt g.1.1 g.1.2 med p99 l1 st h1, hst]
  constructor
  · intro hle
    have hnotgt : ¬ ((npi, paid).2 > p99) := not_lt.2 hle
    rw [flagged_foldl_sig2Member_ne nppes pt g.1.1 g.1.2 med p99 l2 _ h2]
    unfold sig2Member
    rw [if_neg hnotgt]
    exact hpre
  · intro hgt
    rw [flagged_foldl_sig2Member_ne nppes pt g.1.1 g.1.2 med p99 l2 _ h2]
    unfold sig2Member
    rw [if_pos (show (npi, paid).2 > p99 from hgt)]
    refine ⟨_, flagged_flagStep2_self_fresh nppes pt g.1.1 g.1.2 med p99 paid npi _ hpre,
      ?_, ?_⟩ <;> rfl

/-- Witness for C7 on the concrete ten-member group: the extreme member BIG
(paid 1001 > p99 = 911.72) is flagged with exactly one outlier signal and
overpayment 1001 - 911.72 = 89.28. -/
theorem C7_witness :
    ∃ e, lookupA "BIG"
        (sig2Group (fun _ => none) []
          emptyState
          (("", ""),
            [("P1", 1), ("P2", 2), ("P3", 3), ("P4", 4), ("P5", 5), ("P6", 6),
             ("P7", 7), ("P8", 8), ("P9", 9), ("BIG", 1001)])).flagged = some e ∧
      e.estimated_overpayment_usd =
        max 0 (1001 - percentileQ 99
          ([("P1", (1 : ℚ)), ("P2", 2), ("P3", 3), ("P4", 4), ("P5", 5), ("P6", 6),
            ("P7", 7), ("P8", 8), ("P9", 9), ("BIG", 1001)].map (·.2))) ∧
      e.signals = [mkSig2
        (percentileQ 50
          ([("P1", (1 : ℚ)), ("P2", 2), ("P3", 3), ("P4", 4), ("P5", 5), ("P6", 6),
            ("P7", 7), ("P8", 8), ("P9", 9), ("BIG", 1001)].map (·.2)))
        (percentileQ 99
          ([("P1", (1 : ℚ)), ("P2", 2), ("P3", 3), ("P4", 4), ("P5", 5), ("P6", 6),
            ("P7", 7), ("P8", 8), ("P9", 9), ("BIG", 1001)].map (·.2)))
        (if percentileQ 50
            ([("P1", (1 : ℚ)), ("P2", 2), ("P3", 3), ("P4", 4), ("P5", 5), ("P6", 6),
              ("P7", 7), ("P8", 8), ("P9", 9), ("BIG", 1001)].map (·.2)) > 0
         then 1001 / percentileQ 50
            ([("P1", (1 : ℚ)), ("P2", 2), ("P3", 3), ("P4", 4), ("P5", 5), ("P6", 6),
              ("P7", 7), ("P8", 8), ("P9", 9), ("BIG", 1001)].map (·.2)) else 0)] :=
  (C7_outlier_strict_threshold (fun _ => none) []
      (("", ""),
        [("P1", 1), ("P2", 2), ("P3", 3), ("P4", 4), ("P5", 5), ("P6", 6),
         ("P7", 7), ("P8", 8), ("P9", 9), ("BIG", 1001)])
      emptyState "BIG" 1001
      (by decide) (by decide) (by decide) rfl).2
    (by norm_num [percentileQ, sortQ, sortLe, insertLe, List.getD])



/-! ## C8 — ratio-detector flag condition -/

/-- C8: a monthly aggregate is flagged iff its claim count strictly exceeds
100 and the beneficiary/claim ratio is strictly below 0.1; the ratio of a
zero-claim aggregate is defined as 1 and can never flag; when no aggregate
satisfies the condition the whole signal-6 pass is the identity; and the
boundary instances: 101 claims with 9 or 10 unique beneficiaries flag, with
11 they do not. -/
theorem C8_ratio_flag_condition :
    (∀ d : HHData, sig6Fires d = true ↔
        100 < d.claims ∧ (d.benes : ℚ) / (d.claims : ℚ) < 1 / 10)
    ∧ (∀ (b : Nat) (cs : List String),
        hhRatio ⟨0, b, cs⟩ = 1 ∧ sig6Fires ⟨0, b, cs⟩ = false)
    ∧ (∀ (nppes : Nppes) (hm : List ((String × Option Int) × HHData)) (st : FullState),
        (∀ e ∈ hm, sig6Fires e.2 = false) → sig6Stage nppes hm st = st)
    ∧ sig6Fires ⟨101, 9, []⟩ = true
    ∧ sig6Fires ⟨101, 10, []⟩ = true
    ∧ sig6Fires ⟨101, 11, []⟩ = false := by
  refine ⟨?_, ?_, ?_, ?_, ?_, ?_⟩
  · intro d
    unfold sig6Fires hhRatio
    by_cases h : 100 < d.claims
    · have h0 : 0 < d.claims := by omega
      simp [h, h0]
    · simp [h]
  · intro b cs
    constructor
    · simp [hhRatio]
    · simp [sig6Fires]
  · intro nppes hm st h
    unfold sig6Stage
    induction hm generalizing st with
    | nil => rfl
    | cons e hm ih =>
      rw [List.foldl_cons]
      have he : sig6Step nppes st e = st := by
        unfold sig6Step
        rw [h e (List.mem_cons_self _ _)]
        simp
      rw [he]
      exact ih st (fun x hx => h x (List.mem_cons_of_mem _ hx))
  · norm_num [sig6Fires, hhRatio]
  · norm_num [sig6Fires, hhRatio]
  · norm_num [sig6Fires, hhRatio]

/-- Witness for C8: a monthly aggregate of 101 claims and 11 beneficiaries
(ratio above 0.1) leaves the signal-6 pass as the identity. -/
theorem C8_witness :
    sig6Stage (fun _ => none) [(("N", some 0), ⟨101, 11, ["T1019"]⟩)] emptyState
      = emptyState :=
  C8_ratio_flag_condition.2.2.1 (fun _ => none) _ emptyState
    (by
      intro e he
      simp only [List.mem_singleton] at he
      subst he
      norm_num [sig6Fires, hhRatio])

/-! ## C10 — invariants of the merged flagged map -/

/-- The invariant maintained on `all_flagged`: one entry per entity id, and
every present entry has a non-empty signals list. -/
def GoodMap (m : List (String × FlaggedEntity)) : Prop :=
  (keysA m).Nodup ∧ ∀ e ∈ m, e.2.signals ≠ []

theorem updFn1_signals_ne (tp : ℚ) (n : Nat) (sig : Signal) (b : FlaggedEntity) :
    (updFn1 tp n sig b).signals ≠ [] := by
  unfold updFn1
  by_cases h : sig ∈ b.signals
  · simp only [if_pos h]
    exact List.ne_nil_of_mem h
  · simp only [if_neg h]
    simp

theorem updFn2_signals_ne (med p99 ratio paid : ℚ) (b : FlaggedEntity) :
    (updFn2 med p99 ratio paid b).signals ≠ [] := by
  unfold updFn2
  simp

theorem updFn6_signals_ne (d : HHData) (month : Option Int) (b : FlaggedEntity) :
    (updFn6 d month b).signals ≠ [] := by
  unfold updFn6
  simp

/-- The create-if-absent-then-mutate pattern preserves the invariant whenever
the mutation always leaves a non-empty signals list. -/
theorem goodMap_ensure {m : List (String × FlaggedEntity)} (k : String)
    (init : FlaggedEntity) (f : FlaggedEntity → FlaggedEntity)
    (hf : ∀ b, (f b).signals ≠ []) (h : GoodMap m) :
    GoodMap (updateA k f (upsertA k init m)) := by
  constructor
  · rw [keysA_updateA]
    exact nodup_keysA_upsertA _ _ _ h.1
  · intro e he
    rcases List.mem_map.1 he with ⟨a, ha, hae⟩
    by_cases hk : a.1 = k
    · simp only [if_pos hk] at hae
      rw [← hae]
      exact hf _
    · simp only [if_neg hk] at hae
      rw [← hae]
      unfold upsertA at ha
      by_cases hs : (lookupA k m).isSome
      · rw [if_pos hs] at ha
        exact h.2 a ha
      · rw [if_neg hs] at ha
        rcases List.mem_append.1 ha with ha | ha
        · exact h.2 a ha
        · simp only [List.mem_singleton] at ha
          rw [ha] at hk
          exact absurd rfl hk

theorem goodMap_flagStep1 (nppes : Nppes) (npi : String) (rec : ExclusionRecord)
    (viol : List Row) (st : FullState) (h : GoodMap st.flagged) :
    GoodMap (flagStep1 nppes npi rec viol st).flagged := by
  rw [flagStep1_flagged]
  exact goodMap_ensure _ _ _ (updFn1_signals_ne _ _ _) h

theorem goodMap_flagStep2 (nppes : Nppes) (pt : List (String × PTot))
    (taxonomy state : String) (med p99 : ℚ) (npi : String) (paid : ℚ)
    (st : FullState) (h : GoodMap st.flagged) :
    GoodMap (flagStep2 nppes pt taxonomy state med p99 npi paid st).flagged := by
  rw [flagStep2_flagged]
  exact goodMap_ensure _ _ _ (updFn2_signals_ne _ _ _ _) h

theorem goodMap_flagStep6 (nppes : Nppes) (npi : String) (month : Option Int)
    (d : HHData) (st : FullState) (h : GoodMap st.flagged) :
    GoodMap (flagStep6 nppes npi month d st).flagged := by
  rw [flagStep6_flagged]
  exact goodMap_ensure _ _ _ (updFn6_signals_ne _ _) h

theorem goodMap_sig1Stage (leie : List ExclusionRecord) (nppes : Nppes)
    (batches : List (List Row)) (st : FullState) (h : GoodMap st.flagged) :
    GoodMap (sig1Stage leie nppes batches st).flagged := by
  unfold sig1Stage
  induction batches generalizing st with
  | nil => exact h
  | cons b batches ih =>
    rw [List.foldl_cons]
    refine ih _ ?_
    unfold sig1Batch
    generalize firstDedup (b.map (·.billing)) = npis
    induction npis generalizing st with
    | nil => exact h
    | cons npi npis ih2 =>
      rw [List.foldl_cons]
      refine ih2 _ ?_
      unfold sig1Npi
      by_cases hex : isExcluded leie npi
      · rw [if_pos hex]
        cases hf : leie.find? (fun r => r.npi = npi) with
        | none => exact h
        | some rec =>
          simp only
          by_cases hv : ((b.filter (fun r => r.billing = npi)).filter
              (fun r => violatesB rec r.month)).isEmpty
          · rw [if_pos hv]
            exact h
          · rw [if_neg hv]
            exact goodMap_flagStep1 _ _ _ _ _ h
      · rw [if_neg hex]
        exact h

theorem goodMap_sig2Stage (nppes : Nppes) (pt : List (String × PTot)) (st : FullState)
    (h : GoodMap st.flagged) : GoodMap (sig2Stage nppes pt st).flagged := by
  unfold sig2Stage
  generalize peerGroups pt = gs
  induction gs generalizing st with
  | nil => exact h
  | cons g gs ih =>
    rw [List.foldl_cons]
    refine ih _ ?_
    unfold sig2Group
    by_cases hlen : g.2.length < 10
    · rw [if_pos hlen]
      exact h
    · rw [if_neg hlen]
      simp only
      set med := percentileQ 50 (g.2.map (·.2)) with hmed
      set p99 := percentileQ 99 (g.2.map (·.2)) with hp99
      clear hmed hp99
      generalize g.2 = members
      induction members generalizing st with
      | nil => exact h
      | cons m members ih2 =>
        rw [List.foldl_cons]
        refine ih2 _ ?_
        unfold sig2Member
        by_cases hp : m.2 > p99
        · rw [if_pos hp]
          exact goodMap_flagStep2 _ _ _ _ _ _ _ _ _ h
        · rw [if_neg hp]
          exact h

theorem goodMap_sig6Stage (nppes : Nppes) (hm : List ((String × Option Int) × HHData))
    (st : FullState) (h : GoodMap st.flagged) :
    GoodMap (sig6Stage nppes hm st).flagged := by
  unfold sig6Stage
  induction hm generalizing st with
  | nil => exact h
  | cons e hm ih =>
    rw [List.foldl_cons]
    refine ih _ ?_
    unfold sig6Step
    by_cases hf : sig6Fires e.2
    · rw [if_pos hf]
      exact goodMap_flagStep6 _ _ _ _ _ h
    · rw [if_neg hf]
      exact h

/-- The invariant holds of the final state of the whole pipeline. -/
theorem goodMap_runFull (leie : List ExclusionRecord) (nppes : Nppes)
    (batches : List (List Row)) : GoodMap (runFull leie nppes batches).flagged := by
  unfold runFull
  refine goodMap_sig6Stage _ _ _ (goodMap_sig2Stage _ _ _ (goodMap_sig1Stage _ _ _ _ ?_))
  exact ⟨List.nodup_nil, by simp [emptyState]⟩

/-- C10: in the final flagged output every entity id appears at most once (the
keys of the merged map are duplicate-free, whatever detectors fired), and
every entity present in the map has a non-empty signals list. -/
theorem C10_flagged_map_invariants (leie : List ExclusionRecord) (nppes : Nppes)
    (batches : List (List Row)) :
    (keysA (runFull leie nppes batches).flagged).Nodup
    ∧ ∀ e ∈ (runFull leie nppes batches).flagged, e.2.signals ≠ [] :=
  ⟨(goodMap_runFull leie nppes batches).1, (goodMap_runFull leie nppes batches).2⟩



/-! ## C9 — report totals -/

theorem mem_keysA_ptNpi (nppes : Nppes) (b : List Row) (pt : List (String × PTot))
    (npi k : String) :
    k ∈ keysA (ptNpi nppes b pt npi) ↔ k ∈ keysA pt ∨ k = npi := by
  unfold ptNpi
  rw [keysA_updateA, keysA_upsertA]
  by_cases hs : (lookupA npi pt).isSome
  · rw [if_pos hs]
    have hnpi : npi ∈ keysA pt := (mem_keysA_iff_isSome npi pt).2 hs
    constructor
    · exact Or.inl
    · rintro (h | rfl)
      · exact h
      · exact hnpi
  · rw [if_neg hs]
    simp

theorem nodup_keysA_ptNpi (nppes : Nppes) (b : List Row) (pt : List (String × PTot))
    (npi : String) (h : (keysA pt).Nodup) : (keysA (ptNpi nppes b pt npi)).Nodup := by
  unfold ptNpi
  rw [keysA_updateA]
  exact nodup_keysA_upsertA _ _ _ h

theorem mem_keysA_foldl_ptNpi (nppes : Nppes) (b : List Row) :
    ∀ (l : List String) (pt : List (String × PTot)) (k : String),
      k ∈ keysA (l.foldl (ptNpi nppes b) pt) ↔ k ∈ keysA pt ∨ k ∈ l := by
  intro l
  induction l with
  | nil => intro pt k; simp
  | cons a l ih =>
    intro pt k
    rw [List.foldl_cons, ih, mem_keysA_ptNpi]
    constructor
    · rintro ((h | rfl) | h)
      · exact Or.inl h
      · exact Or.inr (List.mem_cons_self _ _)
      · exact Or.inr (List.mem_cons_of_mem _ h)
    · rintro (h | h)
      · exact Or.inl (Or.inl h)
      · rcases List.mem_cons.1 h with rfl | h
        · exact Or.inl (Or.inr rfl)
        · exact Or.inr h

theorem nodup_keysA_foldl_ptNpi (nppes : Nppes) (b : List Row) :
    ∀ (l : List String) (pt : List (String × PTot)),
      (keysA pt).Nodup → (keysA (l.foldl (ptNpi nppes b) pt)).Nodup := by
  intro l
  induction l with
  | nil => intro pt h; exact h
  | cons a l ih =>
    intro pt h
    rw [List.foldl_cons]
    exact ih _ (nodup_keysA_ptNpi _ _ _ _ h)

theorem mem_keysA_fullPT (nppes : Nppes) (batches : List (List Row)) (k : String) :
    k ∈ keysA (fullPT nppes batches) ↔ k ∈ (batches.join).map (·.billing) := by
  unfold fullPT
  have main : ∀ (bs : List (List Row)) (pt : List (String × PTot)),
      k ∈ keysA (bs.foldl (ptBatch nppes) pt) ↔
        k ∈ keysA pt ∨ k ∈ (bs.join).map (·.billing) := by
    intro bs
    induction bs with
    | nil => intro pt; simp
    | cons b bs ih =>
      intro pt
      rw [List.foldl_cons, ih]
      unfold ptBatch
      rw [mem_keysA_foldl_ptNpi, mem_sortedUnique]
      simp only [List.flatten_cons, List.map_append, List.mem_append]
      tauto
  rw [main]
  simp [keysA]

theorem nodup_keysA_fullPT (nppes : Nppes) (batches : List (List Row)) :
    (keysA (fullPT nppes batches)).Nodup := by
  unfold fullPT
  have main : ∀ (bs : List (List Row)) (pt : List (String × PTot)),
      (keysA pt).Nodup → (keysA (bs.foldl (ptBatch nppes) pt)).Nodup := by
    intro bs
    induction bs with
    | nil => intro pt h; exact h
    | cons b bs ih =>
      intro pt h
      rw [List.foldl_cons]
      exact ih _ (nodup_keysA_foldl_ptNpi _ _ _ _ h)
  exact main batches [] (by simp [keysA])

/-- Two duplicate-free lists with the same members have the same length. -/
theorem length_eq_of_nodup_of_mem_iff {l r : List String} (hl : l.Nodup) (hr : r.Nodup)
    (h : ∀ x, x ∈ l ↔ x ∈ r) : l.length = r.length := by
  have hfin : l.toFinset = r.toFinset := by
    apply Finset.ext
    intro a
    rw [List.mem_toFinset, List.mem_toFinset]
    exact h a
  calc l.length = l.toFinset.card := (List.toFinset_card_of_nodup hl).symm
    _ = r.toFinset.card := by rw [hfin]
    _ = r.length := List.toFinset_card_of_nodup hr

/-- C9 (amended): in the full implementation's report, `total_providers_scanned`
equals the number of distinct billing entity ids over all input rows (the ids
that ever entered the aggregator), and `total_providers_flagged` equals the
number of distinct entities present in the merged flagged map. -/
theorem C9_amended_report_totals (leie : List ExclusionRecord) (nppes : Nppes)
    (batches : List (List Row)) :
    fullScanned nppes batches = ((batches.join).map (·.billing)).dedup.length
    ∧ fullFlaggedCount leie nppes batches =
        (keysA (runFull leie nppes batches).flagged).dedup.length := by
  constructor
  · unfold fullScanned
    have hlen : (fullPT nppes batches).length = (keysA (fullPT nppes batches)).length := by
      unfold keysA
      rw [List.length_map]
    rw [hlen]
    refine length_eq_of_nodup_of_mem_iff (nodup_keysA_fullPT nppes batches)
      (List.nodup_dedup _) ?_
    intro x
    rw [List.mem_dedup]
    exact mem_keysA_fullPT nppes batches x
  · unfold fullFlaggedCount
    rw [List.dedup_eq_self.2 (goodMap_runFull leie nppes batches).1]
    unfold keysA
    rw [List.length_map]

/-- C9 counterexample for the claim as stated over `main.py`: with one input
row for one provider (paid 10), the provider enters the aggregator, the global
p99 equals its own paid amount (so the strict outlier test fails and
`signal2_results` is empty), and the report's `total_providers_scanned 
= len(signal2_results) * 100` is 0, not the number of distinct entities
scanned (1). -/
theorem C9_counterexample_scanned :
    mainScanned [[⟨"A", none, some 0, none, 10, 1, 1⟩]] = 0
    ∧ (mainPT [[⟨"A", none, some 0, none, 10, 1, 1⟩]]).length = 1
    ∧ mainScanned [[⟨"A", none, some 0, none, 10, 1, 1⟩]]
        ≠ (mainPT [[⟨"A", none, some 0, none, 10, 1, 1⟩]]).length := by
  refine ⟨?_, ?_, ?_⟩ <;>
  norm_num [mainScanned, mainSignal2, mainP99, mainMedian, mainPT, percentileQ, sortQ,
    sortedUnique, firstDedup, firstDedupAux, sortLe, insertLe, lookupA, updateA, upsertA,
    sumPaid, List.getD]



/-! ## C4 — additive overpayment merging -/

/-- Sum of the estimated overpayments of the records a detector emitted for a
given entity id. -/
def ovpSum (npi : String) (l : List MainResult) : ℚ :=
  ((l.filter (fun r => r.npi = npi)).map (·.estimated_overpayment_usd)).sum

theorem ovpSum_nil (npi : String) : ovpSum npi [] = 0 := rfl

theorem ovpSum_cons (npi : String) (r : MainResult) (l : List MainResult) :
    ovpSum npi (r :: l) =
      if r.npi = npi then r.estimated_overpayment_usd + ovpSum npi l else ovpSum npi l := by
  unfold ovpSum
  by_cases h : r.npi = npi <;> simp [h]

theorem ovpSum_append (npi : String) (l l' : List MainResult) :
    ovpSum npi (l ++ l') = ovpSum npi l + ovpSum npi l' := by
  unfold ovpSum
  rw [List.filter_append, List.map_append, List.sum_append]

/-- The merge loop accumulates every record's estimated overpayment for an id
by addition: the merged value is the initial value (when present) plus the sum
of the batch's contributions, and an id absent from both sides stays absent. -/
theorem lookupA_mainCombineFrom_ovp :
    ∀ (l : List MainResult) (st : List (String × MainResult)) (npi : String),
      (lookupA npi (mainCombineFrom st l)).map (·.estimated_overpayment_usd) =
        match lookupA npi st with
        | some p => some (p.estimated_overpayment_usd + ovpSum npi l)
        | none =>
            if (l.filter (fun r => r.npi = npi)).isEmpty then none
            else some (ovpSum npi l) := by
  intro l
  induction l with
  | nil =>
    intro st npi
    cases h : lookupA npi st <;> simp [mainCombineFrom, h, ovpSum_nil]
  | cons r l ih =>
    intro st npi
    have hstep : mainCombineFrom st (r :: l) = mainCombineFrom (mainCombineStep st r) l := rfl
    rw [hstep, ih]
    by_cases hnpi : r.npi = npi
    · subst hnpi
      cases hlk : lookupA r.npi st with
      | some p =>
        have : lookupA r.npi (mainCombineStep st r) =
            some { p with
              signals := p.signals ++ r.signals
              estimated_overpayment_usd :=
                p.estimated_overpayment_usd + r.estimated_overpayment_usd } := by
          unfold mainCombineStep
          rw [if_pos (by simp [hlk]), lookupA_updateA_self, hlk]
          rfl
        rw [this]
        simp [ovpSum_cons, add_assoc]
      | none =>
        have : lookupA r.npi (mainCombineStep st r) = some r := by
          unfold mainCombineStep
          rw [if_neg (by simp [hlk]), lookupA_append, hlk]
          simp
        rw [this]
        simp [ovpSum_cons]
    · have : lookupA npi (mainCombineStep st r) = lookupA npi st := by
        unfold mainCombineStep
        by_cases hs : (lookupA r.npi st).isSome
        · rw [if_pos hs, lookupA_updateA_ne (fun h => hnpi h.symm)]
        · rw [if_neg hs, lookupA_append]
          have hne : npi ≠ r.npi := fun hh => hnpi hh.symm
          cases h : lookupA npi st <;> simp [hne]
      rw [this]
      have hfilter : (r :: l).filter (fun x => x.npi = npi) = l.filter (fun x => x.npi = npi) := by
        simp [List.filter_cons, hnpi]
      cases hlk : lookupA npi st <;> simp [ovpSum_cons, hnpi, hfilter]

/-- Every record of `signal1_excluded_provider` carries as its estimated
overpayment the full paid amount over all of that entity's violating
(row, exclusion record) matches. -/
theorem mainSignal1_ovp (leie : List ExclusionRecord) (batches : List (List Row)) :
    ∀ r ∈ mainSignal1 leie batches,
      r.estimated_overpayment_usd =
        sumPairPaid ((mainAllPairs leie batches).filter
          (fun p => p.exrec.npi = r.npi)) := by
  intro r hr
  unfold mainSignal1 at hr
  rcases List.mem_map.1 hr with ⟨npi, _, heq⟩
  rw [← heq]
  rfl

/-- Every record of `signal2_billing_outlier` comes from a provider-totals
entry whose paid amount strictly exceeds the global p99, and carries
`max 0 (paid - p99)` as its estimated overpayment. -/
theorem mainSignal2_ovp (batches : List (List Row)) :
    ∀ r ∈ mainSignal2 batches,
      ∃ e ∈ mainPT batches, r.npi = e.1 ∧ e.2.paid > mainP99 batches ∧
        r.estimated_overpayment_usd = max 0 (e.2.paid - mainP99 batches) := by
  intro r hr
  unfold mainSignal2 at hr
  rcases List.mem_map.1 hr with ⟨e, hfe, heq⟩
  rcases List.mem_filter.1 hfe with ⟨he, hgt⟩
  refine ⟨e, he, ?_, by simpa using hgt, ?_⟩ <;> rw [← heq]

/-- Every record of `signal6_geographic_implausibility` carries estimated
overpayment 0. -/
theorem mainSignal6_ovp (batches : List (List Row)) :
    ∀ r ∈ mainSignal6 batches, r.estimated_overpayment_usd = 0 := by
  intro r hr
  unfold mainSignal6 at hr
  rcases List.mem_map.1 hr with ⟨e, _, heq⟩
  rw [← heq]

/-- C4: for every entity in the merged `all_providers` map, the reported
estimated overpayment is the SUM of the three detectors' independently
computed contributions — the full post-exclusion paid amount from the
exclusion detector, `max 0 (paid - p99)` from the outlier detector (computed
once per entity), and 0 from the ratio detector; no contribution is
overwritten or replaced by a maximum. -/
theorem C4_overpayment_additive (leie : List ExclusionRecord)
    (batches : List (List Row)) (npi : String)
    (h : (lookupA npi (mainRun leie batches)).isSome) :
    (lookupA npi (mainRun leie batches)).map (·.estimated_overpayment_usd) =
      some (ovpSum npi (mainSignal1 leie batches) + ovpSum npi (mainSignal2 batches)
        + ovpSum npi (mainSignal6 batches))
    ∧ (∀ r ∈ mainSignal1 leie batches,
        r.estimated_overpayment_usd =
          sumPairPaid ((mainAllPairs leie batches).filter
            (fun p => p.exrec.npi = r.npi)))
    ∧ (∀ r ∈ mainSignal2 batches,
        ∃ e ∈ mainPT batches, r.npi = e.1 ∧ e.2.paid > mainP99 batches ∧
          r.estimated_overpayment_usd = max 0 (e.2.paid - mainP99 batches))
    ∧ (∀ r ∈ mainSignal6 batches, r.estimated_overpayment_usd = 0) := by
  refine ⟨?_, mainSignal1_ovp leie batches, mainSignal2_ovp batches, mainSignal6_ovp batches⟩
  have hmain := lookupA_mainCombineFrom_ovp
    (mainSignal1 leie batches ++ mainSignal2 batches ++ mainSignal6 batches) [] npi
  rw [show mainRun leie batches =
      mainCombineFrom []
        (mainSignal1 leie batches ++ mainSignal2 batches ++ mainSignal6 batches) from rfl]
  simp only [lookupA_nil] at hmain
  by_cases hemp : (((mainSignal1 leie batches ++ mainSignal2 batches
      ++ mainSignal6 batches).filter (fun r => r.npi = npi)).isEmpty)
  · exfalso
    rw [show mainRun leie batches =
        mainCombineFrom []
          (mainSignal1 leie batches ++ mainSignal2 batches ++ mainSignal6 batches) from rfl]
      at h
    rw [if_pos hemp] at hmain
    rcases Option.isSome_iff_exists.1 h with ⟨p, hp⟩
    rw [hp] at hmain
    simp at hmain
  · rw [if_neg hemp] at hmain
    rw [hmain, ovpSum_append, ovpSum_append]



/-! ## C5 — billing and servicing lookups, distinctness -/

/-- Paid-amount sum of the pairs matching a given entity id. -/
def pairPaidFor (npi : String) (ps : List Pair) : ℚ :=
  sumPairPaid (ps.filter (fun p => p.exrec.npi = npi))

theorem pairPaidFor_append (npi : String) (l l' : List Pair) :
    pairPaidFor npi (l ++ l') = pairPaidFor npi l + pairPaidFor npi l' := by
  unfold pairPaidFor sumPairPaid
  rw [List.filter_append, List.map_append, List.sum_append]

theorem billViol_append (leie : List ExclusionRecord) (l l' : List Row) :
    billViol leie (l ++ l') = billViol leie l ++ billViol leie l' := by
  unfold billViol
  simp [List.filter_append]

theorem servViol_append (leie : List ExclusionRecord) (l l' : List Row) :
    servViol leie (l ++ l') = servViol leie l ++ servViol leie l' := by
  unfold servViol
  simp [List.filter_append]

/-- C5 (amended): the `main.py` exclusion detector accumulates a billing-side
match and, independently, a servicing-side match for every row, with NO
distinctness check between the two ids — an entity's matched paid amount is
the billing-channel sum plus the servicing-channel sum over all rows, so a
row whose servicing id equals its billing id is matched a second time; and
the streaming variant (`main_full.run_all_signals`) consults only the billing
id: a row whose servicing id (but not billing id) is excluded produces no
flag there at all. -/
theorem C5_amended_dual_channel (leie : List ExclusionRecord)
    (batches : List (List Row)) (npi : String) :
    pairPaidFor npi (mainAllPairs leie batches)
      = pairPaidFor npi (billViol leie batches.join)
        + pairPaidFor npi (servViol leie batches.join)
    ∧ (runFull [⟨"X", "t", some 0, none, "D", "J"⟩] (fun _ => none)
        [[⟨"B", some "X", some 100, none, 100, 1, 1⟩]]).flagged = [] := by
  constructor
  · induction batches with
    | nil => simp [mainAllPairs, pairPaidFor, sumPairPaid, billViol, servViol]
    | cons b bs ih =>
      have hall : mainAllPairs leie (b :: bs) =
          (billViol leie b ++ servViol leie b) ++ mainAllPairs leie bs := by
        unfold mainAllPairs
        simp
      rw [hall, pairPaidFor_append, pairPaidFor_append, ih,
        show (b :: bs).join = b ++ bs.join from rfl,
        billViol_append, servViol_append, pairPaidFor_append, pairPaidFor_append]
      ring
  · simp [runFull, sig1Stage, sig1Batch, sig1Npi, flagStep1, updFn1, mkSig1, initEnt1,
      sumPaid, isExcluded, violatesB, firstDedup, firstDedupAux, lookupA, updateA, upsertA,
      emptyState, sig2Stage, sig2Group, sig2Member, peerGroups, fullPT, ptBatch, ptNpi,
      sortedUnique, sortLe, insertLe, percentileQ, sortQ, List.getD, fullHH, hhBatch,
      sig6Stage, sig6Step, sig6Fires, hhRatio, flagStep6, updFn6, homeHealthCodes,
      nppesName, nppesField, nppesEntityType]

/-- C5 counterexample to the claim as stated: one single input row whose
billing and servicing ids are the same excluded entity "X" (paid 100, one
claim) is matched twice — once through the billing join and once through the
servicing join — so the aggregated result for "X" reports 200 paid and an
evidence claim count of 2, where the claim predicts a single match. -/
theorem C5_counterexample_same_id_double_match :
    (mainSignal1 [⟨"X", "t", some 0, none, "D", "J"⟩]
        [[⟨"X", some "X", some 100, none, 100, 1, 1⟩]]).map
        (fun r => (r.estimated_overpayment_usd, r.signals.map (·.evidence)))
      = [(200, [Evidence.exclusion (some 0) "t" 200 2])] := by
  norm_num [mainSignal1, mainAllPairs, billViol, servViol, isExcluded, violatesB,
    sortedUnique, firstDedup, firstDedupAux, sortLe, insertLe, mkMainRes1, sumPairPaid,
    leieName, List.getD]

/-! ## C1 and C2 — batch-boundary dependence of the streaming exclusion pass -/

/-- C1: the full pipeline is NOT invariant under re-chunking.  The same two
identical claim rows (entity "A", excluded since day 0, each paid 100) fed as
ONE batch produce estimated overpayment 200 for "A", but fed as TWO
single-row batches produce 100: the second batch's signal entry (paid 100,
1 claim) is equal to the first batch's and is dropped by the `sig not in
signals` test, so its paid amount is never added. -/
theorem C1_rechunking_changes_output :
    ((lookupA "A" (runFull [⟨"A", "1128b4", some 0, none, "DOE", "JOHN"⟩] (fun _ => none)
        [[⟨"A", none, some 100, none, 100, 1, 1⟩, ⟨"A", none, some 100, none, 100, 1, 1⟩]]).flagged).map
      (·.estimated_overpayment_usd) = some 200)
    ∧ ((lookupA "A" (runFull [⟨"A", "1128b4", some 0, none, "DOE", "JOHN"⟩] (fun _ => none)
        [[⟨"A", none, some 100, none, 100, 1, 1⟩], [⟨"A", none, some 100, none, 100, 1, 1⟩]]).flagged).map
      (·.estimated_overpayment_usd) = some 100) := by
  constructor <;>
  norm_num [runFull, sig1Stage, sig1Batch, sig1Npi, flagStep1, updFn1, mkSig1, initEnt1,
    sumPaid, isExcluded, violatesB, firstDedup, firstDedupAux, lookupA, updateA, upsertA,
    emptyState, sig2Stage, sig2Group, sig2Member, peerGroups, fullPT, ptBatch, ptNpi,
    sortedUnique, sortLe, insertLe, percentileQ, sortQ, List.getD, fullHH, hhBatch,
    sig6Stage, sig6Step, sig6Fires, hhRatio, flagStep6, updFn6, homeHealthCodes,
    nppesName, nppesField, nppesEntityType]

/-- C2: the streaming exclusion detector does NOT keep one evidence entry per
(entity, exclusion event) with sums updated in place, and does NOT match
every exclusion record of an entity.  (i) Two batches with different paid
amounts for the same entity and the same single exclusion event leave TWO
`excluded_provider` signal entries in "A"'s record (one per batch, with
per-batch partial sums), instead of one updated entry.  (ii) With two
exclusion records for "A" — the first (taken by `.iloc[0]`) starting at day
1000, the second at day 0 — a claim dated day 100 violating only the second
record produces no flag at all: only the first record is consulted. -/
theorem C2_evidence_not_deduplicated :
    ((lookupA "A" (runFull [⟨"A", "1128b4", some 0, none, "DOE", "JOHN"⟩] (fun _ => none)
        [[⟨"A", none, some 100, none, 100, 1, 1⟩], [⟨"A", none, some 100, none, 50, 1, 1⟩]]).flagged).map
      (·.signals.length) = some 2)
    ∧ (runFull [⟨"A", "t", some 1000, none, "D", "J"⟩, ⟨"A", "t", some 0, none, "D", "J"⟩]
        (fun _ => none) [[⟨"A", none, some 100, none, 100, 1, 1⟩]]).flagged = [] := by
  constructor <;>
  norm_num [runFull, sig1Stage, sig1Batch, sig1Npi, flagStep1, updFn1, mkSig1, initEnt1,
    sumPaid, isExcluded, violatesB, firstDedup, firstDedupAux, lookupA, updateA, upsertA,
    emptyState, sig2Stage, sig2Group, sig2Member, peerGroups, fullPT, ptBatch, ptNpi,
    sortedUnique, sortLe, insertLe, percentileQ, sortQ, List.getD, fullHH, hhBatch,
    sig6Stage, sig6Step, sig6Fires, hhRatio, flagStep6, updFn6, homeHealthCodes,
    nppesName, nppesField, nppesEntityType, List.find?]

/-- Witness for C4 on a concrete run: entity "A" excluded since day 0, one
claim row paid 7; the merged record's overpayment equals the sum of the three
detectors' contributions. -/
theorem C4_witness :
    (lookupA "A" (mainRun [⟨"A", "1128b4", some 0, none, "DOE", "JOHN"⟩]
        [[⟨"A", none, some 100, none, 7, 1, 1⟩]])).map (·.estimated_overpayment_usd) =
      some (ovpSum "A" (mainSignal1 [⟨"A", "1128b4", some 0, none, "DOE", "JOHN"⟩]
          [[⟨"A", none, some 100, none, 7, 1, 1⟩]])
        + ovpSum "A" (mainSignal2 [[⟨"A", none, some 100, none, 7, 1, 1⟩]])
        + ovpSum "A" (mainSignal6 [[⟨"A", none, some 100, none, 7, 1, 1⟩]])) :=
  (C4_overpayment_additive _ _ "A"
    (by
      norm_num [mainRun, mainCombineFrom, mainCombineStep, mainSignal1, mainSignal2,
        mainSignal6, mainAllPairs, billViol, servViol, mainPT, mainP99, mainMedian, mainHH,
        fullHH, hhBatch, sumPairPaid, sumPaid, mkMainRes1, leieName, isExcluded, violatesB,
        percentileQ, sortQ, sortedUnique, firstDedup, firstDedupAux, sortLe, insertLe,
        lookupA, updateA, upsertA, List.getD, sig6Fires, hhRatio, homeHealthCodes])).1



/-- Witness for C10 at a concrete run: one home-health row (101 claims, 9
beneficiaries) flags entity "N"; the final map's keys are duplicate-free and
the concrete entry present in it has a non-empty signals list. -/
theorem C10_witness :
    (keysA (runFull [] (fun _ => none)
        [[⟨"N", none, some 0, some "T1019", 0, 101, 9⟩]]).flagged).Nodup
    ∧ (⟨"N", "Unknown", "individual", "", "", "", 0, 0, 0,
        [mkSig6 ⟨101, 9, ["T1019"]⟩ (some 0)], 0⟩ : FlaggedEntity).signals ≠ [] :=
  ⟨(C10_flagged_map_invariants [] (fun _ => none)
      [[⟨"N", none, some 0, some "T1019", 0, 101, 9⟩]]).1,
   (C10_flagged_map_invariants [] (fun _ => none)
      [[⟨"N", none, some 0, some "T1019", 0, 101, 9⟩]]).2
    ("N", ⟨"N", "Unknown", "individual", "", "", "", 0, 0, 0,
      [mkSig6 ⟨101, 9, ["T1019"]⟩ (some 0)], 0⟩)
    (by
      norm_num [runFull, sig1Stage, sig1Batch, sig1Npi, isExcluded, firstDedup,
        firstDedupAux, emptyState, sig2Stage, sig2Group, sig2Member, peerGroups, fullPT,
        ptBatch, ptNpi, sortedUnique, sortLe, insertLe, lookupA, updateA, upsertA,
        fullHH, hhBatch, insertCode, sig6Stage, sig6Step, sig6Fires, hhRatio, flagStep6,
        updFn6, initEnt6, mkSig6, homeHealthCodes, nppesName, nppesField, nppesEntityType,
        sumPaid, List.getD])⟩

end Fraud
